import Mathlib

/-!
Verification of the live-translation pipeline core, shallowly embedded from
the Python source: context buffer (app/pipeline/context_buffer.py), VAD gate
(app/components/vad_detector.py), segmenter (app/pipeline/stream_processor.py
and app/pipeline/literal_stream_processor.py) and batch queue / playback
scheduler (app/pipeline/batch_queue.py).  Configuration values that the code
reads from config.yaml (window sizes, character budgets, thresholds) are
modelled as parameters.
-/

/-- Total character length of a list of sentences; mirrors
sum(len(s) for s in context) in ContextBuffer.get_context. -/
def totalChars (xs : List String) : Nat := (xs.map String.length).sum

/-- State of app/pipeline/context_buffer.py ContextBuffer: the config
parameters window_size (context_window) and max_chars (context_max_chars)
and the stored deque(maxlen=window_size), oldest entry first. -/
structure ContextBuffer where
  window_size : Nat
  max_chars : Nat
  buffer : List String

/-- Freshly initialised buffer (ContextBuffer.__init__): empty deque. -/
def ContextBuffer.init (w m : Nat) : ContextBuffer := ⟨w, m, []⟩

/-- ContextBuffer.add_sentence: append on the right of the deque; a deque
with maxlen=window_size silently discards entries from the left once the
length exceeds window_size. -/
def ContextBuffer.add_sentence (cb : ContextBuffer) (s : String) : ContextBuffer :=
  let ys := cb.buffer ++ [s]
  { cb with
    buffer := if ys.length ≤ cb.window_size then ys else ys.drop (ys.length - cb.window_size) }

/-- The while loop of ContextBuffer.get_context: while the total character
count exceeds maxChars and the list is nonempty, pop the front (oldest)
entry. -/
def trimFront (maxChars : Nat) : List String → List String
  | [] => []
  | x :: xs => if totalChars (x :: xs) ≤ maxChars then x :: xs else trimFront maxChars xs

/-- ContextBuffer.get_context: copy the deque into a local list, trim that
copy from the front, and return it; the stored buffer is returned unchanged
(the loop pops only from the local copy). -/
def ContextBuffer.get_context (cb : ContextBuffer) : List String × ContextBuffer :=
  (trimFront cb.max_chars cb.buffer, cb)

/-- Fold add_sentence over a whole list of sentences: every buffer state
reachable from a fresh buffer has this form. -/
def ContextBuffer.addAll (cb : ContextBuffer) (ss : List String) : ContextBuffer :=
  ss.foldl ContextBuffer.add_sentence cb

theorem add_sentence_window_size (cb : ContextBuffer) (s : String) :
    (cb.add_sentence s).window_size = cb.window_size := rfl

theorem add_sentence_max_chars (cb : ContextBuffer) (s : String) :
    (cb.add_sentence s).max_chars = cb.max_chars := rfl

theorem add_sentence_length_le (cb : ContextBuffer) (s : String) :
    (cb.add_sentence s).buffer.length ≤ cb.window_size := by
  unfold ContextBuffer.add_sentence
  dsimp only
  split
  · rename_i h
    exact h
  · rename_i h
    simp only [List.length_drop, List.length_append, List.length_cons, List.length_nil]
    omega

theorem addAll_window_size (cb : ContextBuffer) (ss : List String) :
    (cb.addAll ss).window_size = cb.window_size := by
  induction ss generalizing cb with
  | nil => rfl
  | cons s ss ih =>
      simpa [ContextBuffer.addAll, List.foldl_cons] using ih (cb.add_sentence s)

theorem addAll_max_chars (cb : ContextBuffer) (ss : List String) :
    (cb.addAll ss).max_chars = cb.max_chars := by
  induction ss generalizing cb with
  | nil => rfl
  | cons s ss ih =>
      simpa [ContextBuffer.addAll, List.foldl_cons] using ih (cb.add_sentence s)

theorem addAll_length_le (cb : ContextBuffer) (ss : List String)
    (h : cb.buffer.length ≤ cb.window_size) :
    (cb.addAll ss).buffer.length ≤ (cb.addAll ss).window_size := by
  induction ss generalizing cb with
  | nil => simpa [ContextBuffer.addAll] using h
  | cons s ss ih =>
      have h1 : (cb.add_sentence s).buffer.length ≤ (cb.add_sentence s).window_size := by
        simpa [add_sentence_window_size] using add_sentence_length_le cb s
      simpa [ContextBuffer.addAll, List.foldl_cons] using ih (cb.add_sentence s) h1

theorem trimFront_totalChars_le (m : Nat) (xs : List String) :
    totalChars (trimFront m xs) ≤ m := by
  induction xs with
  | nil => simp [trimFront, totalChars]
  | cons x xs ih =>
      unfold trimFront
      split
      · rename_i h
        exact h
      · exact ih

theorem trimFront_suffix (m : Nat) (xs : List String) :
    ∃ dropped, xs = dropped ++ trimFront m xs := by
  induction xs with
  | nil => exact ⟨[], rfl⟩
  | cons x xs ih =>
      unfold trimFront
      split
      · exact ⟨[], rfl⟩
      · obtain ⟨d, hd⟩ := ih
        exact ⟨x :: d, by rw [List.cons_append]; exact congrArg (List.cons x) hd⟩

theorem trimFront_length_le (m : Nat) (xs : List String) :
    (trimFront m xs).length ≤ xs.length := by
  induction xs with
  | nil => simp [trimFront]
  | cons x xs ih =>
      unfold trimFront
      split
      · exact Nat.le_refl _
      · calc (trimFront m xs).length ≤ xs.length := ih
        _ ≤ (x :: xs).length := by simp

theorem length_le_totalChars_of_mem (xs : List String) (s : String) (h : s ∈ xs) :
    s.length ≤ totalChars xs := by
  induction xs with
  | nil => cases h
  | cons x xs ih =>
      rcases List.mem_cons.mp h with h1 | h1
      · subst h1; simp [totalChars]
      · have hih := ih h1
        simp only [totalChars, List.map_cons, List.sum_cons] at hih ⊢
        omega

theorem trimFront_eq_nil_of_long_last (m : Nat) (xs : List String) (s : String)
    (hlast : xs.getLast? = some s) (hlen : m < s.length) :
    trimFront m xs = [] := by
  induction xs with
  | nil => simp at hlast
  | cons x xs ih =>
      have hmem : s ∈ x :: xs := by
        have := List.getLast?_eq_getLast (x :: xs) (by simp)
        rw [this] at hlast
        have hs : s = (x :: xs).getLast (by simp) := by
          injection hlast with h1; exact h1.symm
        rw [hs]; exact List.getLast_mem _
      have htot : ¬ totalChars (x :: xs) ≤ m := by
        have := length_le_totalChars_of_mem (x :: xs) s hmem
        omega
      unfold trimFront
      simp only [htot, if_false]
      cases xs with
      | nil => simp [trimFront]
      | cons y ys =>
          apply ih
          simpa [List.getLast?] using hlast

theorem add_sentence_getLast (cb : ContextBuffer) (s : String) (hw : 1 ≤ cb.window_size) :
    (cb.add_sentence s).buffer.getLast? = some s := by
  unfold ContextBuffer.add_sentence
  dsimp only
  split
  · exact List.getLast?_concat _
  · rename_i h
    rw [List.drop_append_of_le_length (by simp; omega)]
    exact List.getLast?_concat _

/-- Claim C3, counterexample: the claim asserts that after every mutation the
STORED buffer satisfies both the entry-count bound and the character bound.
With window_size = 2 and max_chars = 3, adding the single sentence "abcde"
to a fresh buffer leaves a stored buffer of total character length 5 > 3:
add_sentence only ever trims by entry count (deque maxlen), never by
characters. -/
theorem C3_stored_chars_counterexample :
    ¬ (((ContextBuffer.init 2 3).add_sentence "abcde").buffer.length
          ≤ ((ContextBuffer.init 2 3).add_sentence "abcde").window_size
       ∧ totalChars ((ContextBuffer.init 2 3).add_sentence "abcde").buffer
          ≤ ((ContextBuffer.init 2 3).add_sentence "abcde").max_chars) := by
  intro h
  exact absurd h.2 (by decide)

theorem reachable_buffer_length_le (w m : Nat) (ss : List String) :
    ((ContextBuffer.init w m).addAll ss).buffer.length ≤ w := by
  have h1 := addAll_length_le (ContextBuffer.init w m) ss
    (by simp [ContextBuffer.init])
  rwa [addAll_window_size] at h1

theorem reachable_get_context_chars_le (w m : Nat) (ss : List String) :
    totalChars ((ContextBuffer.init w m).addAll ss).get_context.1 ≤ m := by
  have h1 := trimFront_totalChars_le ((ContextBuffer.init w m).addAll ss).max_chars
    ((ContextBuffer.init w m).addAll ss).buffer
  rw [addAll_max_chars] at h1
  simpa [ContextBuffer.get_context, addAll_max_chars, ContextBuffer.init] using h1

/-- Claim C3 (amended): after every mutation (any sequence of add_sentence
calls on a fresh buffer) the stored buffer holds at most window_size
entries; the max_chars character bound is enforced not on the stored
entries but on the snapshot returned by get_context, whose total character
length is at most max_chars. -/
theorem C3_buffer_bounds (w m : Nat) (ss : List String) :
    ((ContextBuffer.init w m).addAll ss).buffer.length ≤ w
    ∧ totalChars ((ContextBuffer.init w m).addAll ss).get_context.1 ≤ m :=
  ⟨reachable_buffer_length_le w m ss, reachable_get_context_chars_le w m ss⟩

/-- Claim C7: for every buffer state reachable by appends with
window_size = w, get_context returns a snapshot of at most w entries whose
concatenated character length is at most max_chars, the snapshot is a
suffix of the stored entries (trimming removed only a front segment, the
oldest end), and the stored state is returned unchanged. -/
theorem C7_get_context_spec (w m : Nat) (ss : List String) :
    ((ContextBuffer.init w m).addAll ss).get_context.1.length ≤ w
    ∧ totalChars ((ContextBuffer.init w m).addAll ss).get_context.1 ≤ m
    ∧ (∃ dropped, ((ContextBuffer.init w m).addAll ss).buffer
        = dropped ++ ((ContextBuffer.init w m).addAll ss).get_context.1)
    ∧ ((ContextBuffer.init w m).addAll ss).get_context.2
        = (ContextBuffer.init w m).addAll ss := by
  refine ⟨?_, reachable_get_context_chars_le w m ss, ?_, rfl⟩
  · have h1 := trimFront_length_le ((ContextBuffer.init w m).addAll ss).max_chars
      ((ContextBuffer.init w m).addAll ss).buffer
    have h2 := reachable_buffer_length_le w m ss
    simp only [ContextBuffer.get_context]
    omega
  · simpa [ContextBuffer.get_context] using
      trimFront_suffix ((ContextBuffer.init w m).addAll ss).max_chars
        ((ContextBuffer.init w m).addAll ss).buffer

/-- Claim C10: whenever the most recently added sentence alone is longer
than max_chars (and window_size is at least 1, so the sentence is actually
stored), get_context returns the empty list: front-trimming removes every
entry, including the newest one, immediately after a successful
add_sentence. -/
theorem C10_long_last_sentence_empty_context (w m : Nat) (ss : List String) (s : String)
    (hw : 1 ≤ w) (hlen : m < s.length) :
    ((((ContextBuffer.init w m).addAll ss).add_sentence s).get_context).1 = [] := by
  have hwc : ((ContextBuffer.init w m).addAll ss).window_size = w :=
    addAll_window_size _ _
  have hmc : (((ContextBuffer.init w m).addAll ss).add_sentence s).max_chars = m := by
    rw [add_sentence_max_chars, addAll_max_chars]; rfl
  have hlast := add_sentence_getLast ((ContextBuffer.init w m).addAll ss) s
    (by rw [hwc]; exact hw)
  simp only [ContextBuffer.get_context, hmc]
  exact trimFront_eq_nil_of_long_last m _ s hlast hlen

/-- Claim C10, witness: window_size = 2, max_chars = 3, adding "abcde"
(length 5 > 3) to a fresh buffer makes get_context return no entries. -/
theorem C10_long_last_sentence_empty_context_witness :
    1 ≤ 2 ∧ 3 < ("abcde" : String).length
    ∧ ((((ContextBuffer.init 2 3).addAll []).add_sentence "abcde").get_context).1 = [] :=
  ⟨by decide, by decide,
    C10_long_last_sentence_empty_context 2 3 [] "abcde" (by decide) (by decide)⟩

/-- Python int() applied to a float: truncation toward zero, modelled on
rationals. -/
def pyInt (q : ℚ) : ℤ := if 0 ≤ q then ⌊q⌋ else ⌈q⌉

/-- State of app/components/vad_detector.py VADDetector: the configured
speech-probability threshold and minimum silence duration (seconds), and
the two running frame counters.  The Silero neural network itself is an
external collaborator; its averaged speech probability for a chunk enters
the model as an input to detect_speech. -/
structure VADDetector where
  threshold : ℚ
  min_silence_duration : ℚ
  speech_frames : Nat
  silence_frames : Nat

/-- VADDetector.detect_speech, given the averaged model probability
avg_prob for the chunk: if avg_prob exceeds the threshold the speech
counter is incremented and the silence counter zeroed (returning True),
otherwise the silence counter is incremented and the speech counter zeroed
(returning False). -/
def VADDetector.detect_speech (v : VADDetector) (avg_prob : ℚ) : VADDetector × Bool :=
  if v.threshold < avg_prob then
    ({ v with speech_frames := v.speech_frames + 1, silence_frames := 0 }, true)
  else
    ({ v with silence_frames := v.silence_frames + 1, speech_frames := 0 }, false)

/-- The threshold int(min_silence_duration * 10) computed inside
VADDetector.is_silence_ready; 10 is the frame rate (frames per second, at
100 ms chunks). -/
def VADDetector.min_silence_frames (v : VADDetector) : ℤ :=
  pyInt (v.min_silence_duration * 10)

/-- VADDetector.is_silence_ready: silence_frames >= int(min_silence_duration * 10). -/
def VADDetector.is_silence_ready (v : VADDetector) : Bool :=
  decide (v.min_silence_frames ≤ (v.silence_frames : ℤ))

/-- VADDetector.reset: zero both counters. -/
def VADDetector.reset (v : VADDetector) : VADDetector :=
  { v with speech_frames := 0, silence_frames := 0 }

/-- Claim C9: for every VAD state whose configured silence duration times
the frame rate (10 frames per second) is a whole number of frames k — as
in every duration the repository mentions, e.g. 1.5 s = 15 frames —
is_silence_ready returns true exactly when the consecutive-silence counter
has reached min_silence_duration times the frame rate; and each
classification call increments one of the two counters and resets the
other to zero. -/
theorem C9_is_silence_ready_spec (v : VADDetector) (k : Nat)
    (h : v.min_silence_duration * 10 = (k : ℚ)) :
    (v.is_silence_ready = true ↔ v.min_silence_duration * 10 ≤ ((v.silence_frames : ℚ)))
    ∧ (∀ p, (v.detect_speech p).2 = true →
        (v.detect_speech p).1.speech_frames = v.speech_frames + 1
        ∧ (v.detect_speech p).1.silence_frames = 0)
    ∧ (∀ p, (v.detect_speech p).2 = false →
        (v.detect_speech p).1.silence_frames = v.silence_frames + 1
        ∧ (v.detect_speech p).1.speech_frames = 0) := by
  refine ⟨?_, ?_, ?_⟩
  · unfold VADDetector.is_silence_ready VADDetector.min_silence_frames pyInt
    rw [h, if_pos (by positivity), Int.floor_natCast]
    simp only [decide_eq_true_eq, Int.cast_natCast]
    constructor
    · intro h1
      exact_mod_cast h1
    · intro h1
      exact_mod_cast h1
  · intro p hp
    unfold VADDetector.detect_speech at hp ⊢
    by_cases hc : v.threshold < p
    · simp [hc]
    · simp [hc] at hp
  · intro p hp
    unfold VADDetector.detect_speech at hp ⊢
    by_cases hc : v.threshold < p
    · simp [hc] at hp
    · simp [hc]

/-- Claim C9, witness: duration 1.5 s gives a threshold of 15 frames; a
state with 15 accumulated silence frames reports silence-ready. -/
theorem C9_is_silence_ready_spec_witness :
    ((⟨1/2, 3/2, 0, 15⟩ : VADDetector).min_silence_duration * 10 = ((15 : Nat) : ℚ))
    ∧ (((⟨1/2, 3/2, 0, 15⟩ : VADDetector).is_silence_ready = true
          ↔ (⟨1/2, 3/2, 0, 15⟩ : VADDetector).min_silence_duration * 10
              ≤ (((⟨1/2, 3/2, 0, 15⟩ : VADDetector).silence_frames : ℚ)))
        ∧ (∀ p, ((⟨1/2, 3/2, 0, 15⟩ : VADDetector).detect_speech p).2 = true →
            ((⟨1/2, 3/2, 0, 15⟩ : VADDetector).detect_speech p).1.speech_frames
              = (⟨1/2, 3/2, 0, 15⟩ : VADDetector).speech_frames + 1
            ∧ ((⟨1/2, 3/2, 0, 15⟩ : VADDetector).detect_speech p).1.silence_frames = 0)
        ∧ (∀ p, ((⟨1/2, 3/2, 0, 15⟩ : VADDetector).detect_speech p).2 = false →
            ((⟨1/2, 3/2, 0, 15⟩ : VADDetector).detect_speech p).1.silence_frames
              = (⟨1/2, 3/2, 0, 15⟩ : VADDetector).silence_frames + 1
            ∧ ((⟨1/2, 3/2, 0, 15⟩ : VADDetector).detect_speech p).1.speech_frames = 0)) :=
  ⟨by norm_num, C9_is_silence_ready_spec ⟨1/2, 3/2, 0, 15⟩ 15 (by norm_num)⟩

/-- One incoming audio chunk as seen by the segmenter process_chunk calls:
its decoded samples, the averaged VAD model probability for it (the
external Silero network output), and the wall-clock time of the call. -/
structure ChunkIn where
  audio : List ℚ
  avg_prob : ℚ
  now : ℚ

/-- Configuration read by app/pipeline/stream_processor.py: the
min_chunk_duration and max_phrase_duration thresholds (seconds) and the
minimum sample count int(min_speech_duration * sample_rate) below which
finalize_phrase discards a phrase. -/
structure SPConfig where
  min_chunk_duration : ℚ
  max_phrase_duration : ℚ
  min_speech_samples : Nat

/-- Mutable state of StreamProcessor / LiteralStreamProcessor: the VAD
state, the phrase start time (None while idle), the accumulated samples of
the active phrase, and — as the observable output — the list of phrases
submitted to BatchQueue.add_batch so far. -/
structure SPState where
  vad : VADDetector
  phrase_start : Option ℚ
  current_phrase : List ℚ
  submitted : List (List ℚ)

/-- Fresh processor state: idle, no accumulated samples, nothing submitted. -/
def SPState.init (v : VADDetector) : SPState := ⟨v, none, [], []⟩

/-- StreamProcessor.process_chunk (throughput profile): classify the chunk,
start a phrase on the first speech frame, append all audio while a phrase
is active, and finalize on silence in the seek window or at the hard
maximum; a finalized phrase is submitted only if nonempty and at least
min_speech_samples long (finalize_phrase discards shorter ones). -/
def process_chunk (cfg : SPConfig) (s : SPState) (c : ChunkIn) : SPState :=
  let r := s.vad.detect_speech c.avg_prob
  let vad1 := r.1
  let is_speech := r.2
  let start1 : Option ℚ :=
    if is_speech = true ∧ s.phrase_start = none then some c.now else s.phrase_start
  match start1 with
  | none => { s with vad := vad1 }
  | some t0 =>
      let phrase := s.current_phrase ++ c.audio
      let dur := c.now - t0
      let fin : Bool :=
        if dur < cfg.min_chunk_duration then false
        else if cfg.max_phrase_duration ≤ dur then true
        else vad1.is_silence_ready
      if fin = true then
        { vad := vad1.reset, phrase_start := none, current_phrase := [],
          submitted := s.submitted ++
            (if phrase ≠ [] ∧ cfg.min_speech_samples ≤ phrase.length then [phrase] else []) }
      else
        { s with vad := vad1, phrase_start := start1, current_phrase := phrase }

/-- LiteralStreamProcessor.process_chunk (latency profile): same state
machine with the hardcoded thresholds min 1.5 s, max 4.0 s and pause
0.15 s; the silence check compares the VAD silence counter against
int(0.15 * 10) directly instead of calling is_silence_ready. -/
def literal_process_chunk (min_speech_samples : Nat) (s : SPState) (c : ChunkIn) : SPState :=
  let r := s.vad.detect_speech c.avg_prob
  let vad1 := r.1
  let is_speech := r.2
  let start1 : Option ℚ :=
    if is_speech = true ∧ s.phrase_start = none then some c.now else s.phrase_start
  match start1 with
  | none => { s with vad := vad1 }
  | some t0 =>
      let phrase := s.current_phrase ++ c.audio
      let dur := c.now - t0
      let fin : Bool :=
        if dur < (3/2 : ℚ) then false
        else if (4 : ℚ) ≤ dur then true
        else decide (pyInt ((3/20 : ℚ) * 10) ≤ (vad1.silence_frames : ℤ))
      if fin = true then
        { vad := vad1.reset, phrase_start := none, current_phrase := [],
          submitted := s.submitted ++
            (if phrase ≠ [] ∧ min_speech_samples ≤ phrase.length then [phrase] else []) }
      else
        { s with vad := vad1, phrase_start := start1, current_phrase := phrase }

/-- Feed a whole stream of chunks through the throughput-profile segmenter. -/
def run_chunks (cfg : SPConfig) (s : SPState) (cs : List ChunkIn) : SPState :=
  cs.foldl (process_chunk cfg) s

/-- Feed a whole stream of chunks through the latency-profile segmenter. -/
def literal_run_chunks (msp : Nat) (s : SPState) (cs : List ChunkIn) : SPState :=
  cs.foldl (literal_process_chunk msp) s

theorem process_chunk_silent (cfg : SPConfig) (s : SPState) (c : ChunkIn)
    (hp : c.avg_prob ≤ s.vad.threshold) (hs : s.phrase_start = none) :
    (process_chunk cfg s c).phrase_start = none
    ∧ (process_chunk cfg s c).submitted = s.submitted
    ∧ (process_chunk cfg s c).vad.threshold = s.vad.threshold := by
  have hc : ¬ s.vad.threshold < c.avg_prob := not_lt.mpr hp
  unfold process_chunk VADDetector.detect_speech
  simp [hc, hs]

theorem literal_process_chunk_silent (msp : Nat) (s : SPState) (c : ChunkIn)
    (hp : c.avg_prob ≤ s.vad.threshold) (hs : s.phrase_start = none) :
    (literal_process_chunk msp s c).phrase_start = none
    ∧ (literal_process_chunk msp s c).submitted = s.submitted
    ∧ (literal_process_chunk msp s c).vad.threshold = s.vad.threshold := by
  have hc : ¬ s.vad.threshold < c.avg_prob := not_lt.mpr hp
  unfold literal_process_chunk VADDetector.detect_speech
  simp [hc, hs]

theorem run_chunks_silent (cfg : SPConfig) (cs : List ChunkIn) (s : SPState)
    (hs : s.phrase_start = none)
    (hsil : ∀ c ∈ cs, c.avg_prob ≤ s.vad.threshold) :
    (run_chunks cfg s cs).submitted = s.submitted
    ∧ (run_chunks cfg s cs).phrase_start = none := by
  induction cs generalizing s with
  | nil => exact ⟨rfl, hs⟩
  | cons c cs ih =>
      have h1 := process_chunk_silent cfg s c (hsil c (by simp)) hs
      have h2 := ih (process_chunk cfg s c) h1.1
        (fun x hx => by rw [h1.2.2]; exact hsil x (List.mem_cons_of_mem c hx))
      refine ⟨?_, ?_⟩
      · have : (run_chunks cfg s (c :: cs)) = run_chunks cfg (process_chunk cfg s c) cs := by
          simp [run_chunks]
        rw [this, h2.1, h1.2.1]
      · have : (run_chunks cfg s (c :: cs)) = run_chunks cfg (process_chunk cfg s c) cs := by
          simp [run_chunks]
        rw [this]
        exact h2.2

theorem literal_run_chunks_silent (msp : Nat) (cs : List ChunkIn) (s : SPState)
    (hs : s.phrase_start = none)
    (hsil : ∀ c ∈ cs, c.avg_prob ≤ s.vad.threshold) :
    (literal_run_chunks msp s cs).submitted = s.submitted
    ∧ (literal_run_chunks msp s cs).phrase_start = none := by
  induction cs generalizing s with
  | nil => exact ⟨rfl, hs⟩
  | cons c cs ih =>
      have h1 := literal_process_chunk_silent msp s c (hsil c (by simp)) hs
      have h2 := ih (literal_process_chunk msp s c) h1.1
        (fun x hx => by rw [h1.2.2]; exact hsil x (List.mem_cons_of_mem c hx))
      refine ⟨?_, ?_⟩
      · have : (literal_run_chunks msp s (c :: cs))
            = literal_run_chunks msp (literal_process_chunk msp s c) cs := by
          simp [literal_run_chunks]
        rw [this, h2.1, h1.2.1]
      · have : (literal_run_chunks msp s (c :: cs))
            = literal_run_chunks msp (literal_process_chunk msp s c) cs := by
          simp [literal_run_chunks]
        rw [this]
        exact h2.2

/-- Claim C8: on any input stream in which every chunk is classified as
silence (its averaged probability never exceeds the threshold), both
segmenter profiles finalize zero utterances — nothing is ever submitted to
the batch queue — and no phrase is ever started (the start time stays
None, since it is recorded only on the first speech-classified frame). -/
theorem C8_silence_only_no_utterances (cfg : SPConfig) (msp : Nat) (v : VADDetector)
    (cs : List ChunkIn) (hsil : ∀ c ∈ cs, c.avg_prob ≤ v.threshold) :
    (run_chunks cfg (SPState.init v) cs).submitted = []
    ∧ (run_chunks cfg (SPState.init v) cs).phrase_start = none
    ∧ (literal_run_chunks msp (SPState.init v) cs).submitted = []
    ∧ (literal_run_chunks msp (SPState.init v) cs).phrase_start = none := by
  have h1 := run_chunks_silent cfg cs (SPState.init v) rfl hsil
  have h2 := literal_run_chunks_silent msp cs (SPState.init v) rfl hsil
  exact ⟨h1.1, h1.2, h2.1, h2.2⟩

/-- Claim C8, witness: two all-silence chunks (probabilities 0 and 1,
threshold 1, so neither exceeds the threshold) produce no submitted
utterance in either profile. -/
theorem C8_silence_only_no_utterances_witness :
    (∀ c ∈ [(⟨[0, 0], 0, 0⟩ : ChunkIn), ⟨[0], 1, 1⟩],
        c.avg_prob ≤ (⟨1, 2, 0, 0⟩ : VADDetector).threshold)
    ∧ ((run_chunks ⟨12, 18, 8000⟩ (SPState.init ⟨1, 2, 0, 0⟩)
          [⟨[0, 0], 0, 0⟩, ⟨[0], 1, 1⟩]).submitted = []
      ∧ (run_chunks ⟨12, 18, 8000⟩ (SPState.init ⟨1, 2, 0, 0⟩)
          [⟨[0, 0], 0, 0⟩, ⟨[0], 1, 1⟩]).phrase_start = none
      ∧ (literal_run_chunks 8000 (SPState.init ⟨1, 2, 0, 0⟩)
          [⟨[0, 0], 0, 0⟩, ⟨[0], 1, 1⟩]).submitted = []
      ∧ (literal_run_chunks 8000 (SPState.init ⟨1, 2, 0, 0⟩)
          [⟨[0, 0], 0, 0⟩, ⟨[0], 1, 1⟩]).phrase_start = none) :=
  ⟨by decide, C8_silence_only_no_utterances ⟨12, 18, 8000⟩ 8000 ⟨1, 2, 0, 0⟩
    [⟨[0, 0], 0, 0⟩, ⟨[0], 1, 1⟩] (by decide)⟩

/-- Python str.lower() restricted to what the language check needs:
character-wise lowercasing. -/
def lowercase (s : String) : String := ⟨s.data.map Char.toLower⟩

/-- Result dict of the STT collaborator: transcribed text and detected
language. -/
structure Transcription where
  text : String
  language : String

/-- A processed batch dict as built by BatchQueue.process_batch and
enriched by _process_batch_async with the _pipeline_semaphore_acquired
flag before it is put on the ready queue. -/
structure Processed where
  original : String
  translated : String
  audio_len : Nat
  duration : ℚ
  pipeline_semaphore_acquired : Bool
  deriving DecidableEq

/-- Observable actions of the batch queue and playback scheduler: messages
sent over the websocket transport, the duration-paced sleep, the
played-batch counter increment, and the admission-slot release. -/
inductive Ev where
  | send_transcription (text : String)
  | send_translation (orig tr : String)
  | send_audio (len : Nat) (duration : ℚ)
  | send_metrics
  | send_russian_detected (text : String)
  | sleep (duration : ℚ)
  | inc_batches_processed
  | release_slot
  deriving DecidableEq

/-- The hardcoded list of language tags treated as Russian by
BatchQueue.process_batch; Russian is the fixed output (target) language of
the pipeline (English to Russian translation). -/
def russianLangs : List String := ["ru", "russian", "rus"]

/-- Everything observable about one BatchQueue.process_batch call: its
return value (error = exception re-raised, ok none = language skip,
ok some = processed dict), how many Translation and TTS collaborator
calls it made, the websocket messages it sent, the errors it recorded via
metrics.record_error, and the sentences it appended to the context
buffer. -/
structure PBResult where
  outcome : Except String (Option Processed)
  translation_calls : Nat
  tts_calls : Nat
  sent : List Ev
  errors_recorded : List (String × String)
  context_added : List String

/-- BatchQueue.process_batch, parameterised by the collaborator results:
stt is the STT outcome, tl the Translation outcome, tts the TTS outcome
(length in bytes of the returned WAV).  Stage order is STT, then the
language check, then Translation (appending the original text to the
context buffer on success), then TTS; the audio duration is computed as
(len(audio_bytes) - 44) / (sample_rate * 2); any collaborator error is
recorded as "batch_processing" and re-raised. -/
def process_batch (sample_rate : Nat) (stt : Except String Transcription)
    (tl : Except String String) (tts : Except String Nat) : PBResult :=
  match stt with
  | .error e => ⟨.error e, 0, 0, [], [("batch_processing", e)], []⟩
  | .ok tr =>
      if lowercase tr.language ∈ russianLangs then
        ⟨.ok none, 0, 0, [Ev.send_russian_detected tr.text], [], []⟩
      else
        match tl with
        | .error e => ⟨.error e, 1, 0, [], [("batch_processing", e)], []⟩
        | .ok t =>
            match tts with
            | .error e => ⟨.error e, 1, 1, [], [("batch_processing", e)], [tr.text]⟩
            | .ok n =>
                ⟨.ok (some ⟨tr.text, t, n, ((n : ℚ) - 44) / ((sample_rate : ℚ) * 2), false⟩),
                 1, 1, [], [], [tr.text]⟩

/-- The per-session state that BatchQueue._process_batch_async can touch:
the free admission slots of the pipeline semaphore, the ready queue
contents, and the recorded errors. -/
structure BQState where
  semAvail : Nat
  ready_list : List Processed
  errors : List (String × String)

/-- BatchQueue._process_batch_async given the result of its process_batch
call: on a language skip (None) it releases the admission slot; on success
it marks the batch with _pipeline_semaphore_acquired and puts it on the
ready queue; on an exception it records "batch_processing_async" and
releases the admission slot.  It never re-raises. -/
def process_batch_async (st : BQState) (r : PBResult) : BQState :=
  match r.outcome with
  | .ok none =>
      { st with errors := st.errors ++ r.errors_recorded, semAvail := st.semAvail + 1 }
  | .ok (some b) =>
      { st with errors := st.errors ++ r.errors_recorded,
                ready_list := st.ready_list ++ [{ b with pipeline_semaphore_acquired := true }] }
  | .error e =>
      { st with errors := st.errors ++ r.errors_recorded ++ [("batch_processing_async", e)],
                semAvail := st.semAvail + 1 }

/-- Claim C2: whenever any stage of background processing fails (STT,
Translation or TTS collaborator error), the admission slot is released
(semAvail rises by exactly one), the error is recorded both by
process_batch and by the background wrapper, and nothing else changes: the
ready queue — the state of every other utterance — is untouched and no
exception escapes (_process_batch_async returns normally). -/
theorem C2_error_releases_slot (st : BQState) (sr : Nat) (stt : Except String Transcription)
    (tl : Except String String) (tts : Except String Nat) (e : String)
    (h : (process_batch sr stt tl tts).outcome = Except.error e) :
    (process_batch_async st (process_batch sr stt tl tts)).semAvail = st.semAvail + 1
    ∧ (process_batch_async st (process_batch sr stt tl tts)).ready_list = st.ready_list
    ∧ ("batch_processing", e) ∈ (process_batch_async st (process_batch sr stt tl tts)).errors
    ∧ ("batch_processing_async", e)
        ∈ (process_batch_async st (process_batch sr stt tl tts)).errors := by
  rcases stt with e1 | tr
  · simp only [process_batch, Except.error.injEq] at h
    subst h
    simp [process_batch, process_batch_async]
  · by_cases hl : lowercase tr.language ∈ russianLangs
    · simp [process_batch, hl] at h
    · rcases tl with e2 | t
      · simp only [process_batch, hl, if_false, Except.error.injEq] at h
        subst h
        simp [process_batch, process_batch_async, hl]
      · rcases tts with e3 | n
        · simp only [process_batch, hl, if_false, Except.error.injEq] at h
          subst h
          simp [process_batch, process_batch_async, hl]
        · simp [process_batch, hl] at h

/-- Claim C2, witness: an STT failure "boom" releases the slot and records
the error. -/
theorem C2_error_releases_slot_witness :
    ((process_batch 24000 (Except.error "boom") (Except.ok "x") (Except.ok 100)).outcome
        = Except.error "boom")
    ∧ ((process_batch_async ⟨0, [], []⟩
          (process_batch 24000 (Except.error "boom") (Except.ok "x") (Except.ok 100))).semAvail
        = (⟨0, [], []⟩ : BQState).semAvail + 1
      ∧ (process_batch_async ⟨0, [], []⟩
          (process_batch 24000 (Except.error "boom") (Except.ok "x") (Except.ok 100))).ready_list
        = (⟨0, [], []⟩ : BQState).ready_list
      ∧ ("batch_processing", "boom") ∈ (process_batch_async ⟨0, [], []⟩
          (process_batch 24000 (Except.error "boom") (Except.ok "x") (Except.ok 100))).errors
      ∧ ("batch_processing_async", "boom") ∈ (process_batch_async ⟨0, [], []⟩
          (process_batch 24000 (Except.error "boom") (Except.ok "x") (Except.ok 100))).errors) :=
  ⟨rfl, C2_error_releases_slot ⟨0, [], []⟩ 24000 (Except.error "boom") (Except.ok "x")
    (Except.ok 100) "boom" rfl⟩

/-- Claim C4: when the detected language is the output (target) language —
Russian, matched case-insensitively against ru / russian / rus — the
utterance is skipped, not failed: process_batch returns None after
notifying the transport, makes zero Translation and zero TTS collaborator
calls, and the background wrapper releases the admission slot without
touching the ready queue. -/
theorem C4_language_skip (st : BQState) (sr : Nat) (text lang : String)
    (tl : Except String String) (tts : Except String Nat)
    (h : lowercase lang ∈ russianLangs) :
    (process_batch sr (Except.ok ⟨text, lang⟩) tl tts).outcome = Except.ok none
    ∧ (process_batch sr (Except.ok ⟨text, lang⟩) tl tts).translation_calls = 0
    ∧ (process_batch sr (Except.ok ⟨text, lang⟩) tl tts).tts_calls = 0
    ∧ (process_batch sr (Except.ok ⟨text, lang⟩) tl tts).sent
        = [Ev.send_russian_detected text]
    ∧ (process_batch_async st (process_batch sr (Except.ok ⟨text, lang⟩) tl tts)).semAvail
        = st.semAvail + 1
    ∧ (process_batch_async st (process_batch sr (Except.ok ⟨text, lang⟩) tl tts)).ready_list
        = st.ready_list := by
  simp [process_batch, h, process_batch_async]

/-- Claim C4, witness: detected language "RU" (lowercased to "ru") on a
state with no free slots: the skip path sends the notice, makes no
Translation/TTS call and frees the slot. -/
theorem C4_language_skip_witness :
    (lowercase "RU" ∈ russianLangs)
    ∧ ((process_batch 24000 (Except.ok ⟨"hi", "RU"⟩) (Except.ok "x") (Except.ok 100)).outcome
        = Except.ok none
      ∧ (process_batch 24000 (Except.ok ⟨"hi", "RU"⟩) (Except.ok "x")
          (Except.ok 100)).translation_calls = 0
      ∧ (process_batch 24000 (Except.ok ⟨"hi", "RU"⟩) (Except.ok "x")
          (Except.ok 100)).tts_calls = 0
      ∧ (process_batch 24000 (Except.ok ⟨"hi", "RU"⟩) (Except.ok "x") (Except.ok 100)).sent
        = [Ev.send_russian_detected "hi"]
      ∧ (process_batch_async ⟨0, [], []⟩ (process_batch 24000 (Except.ok ⟨"hi", "RU"⟩)
          (Except.ok "x") (Except.ok 100))).semAvail = (⟨0, [], []⟩ : BQState).semAvail + 1
      ∧ (process_batch_async ⟨0, [], []⟩ (process_batch 24000 (Except.ok ⟨"hi", "RU"⟩)
          (Except.ok "x") (Except.ok 100))).ready_list = (⟨0, [], []⟩ : BQState).ready_list) :=
  ⟨by decide, C4_language_skip ⟨0, [], []⟩ 24000 "hi" "RU" (Except.ok "x") (Except.ok 100)
    (by decide)⟩

/-- BatchQueue._play_batch as the ordered trace of its observable actions:
send transcription, translation, audio payload and a metrics snapshot;
sleep for the batch audio duration; increment the played-batch counter and
send final metrics; and in the finally block release the admission slot if
the batch holds one. -/
def play_batch (b : Processed) : List Ev :=
  [Ev.send_transcription b.original,
   Ev.send_translation b.original b.translated,
   Ev.send_audio b.audio_len b.duration,
   Ev.send_metrics,
   Ev.sleep b.duration,
   Ev.inc_batches_processed,
   Ev.send_metrics]
  ++ (if b.pipeline_semaphore_acquired then [Ev.release_slot] else [])

/-- Claim C6: for every batch played by the scheduler (one that holds an
admission slot), the trace of _play_batch emits the transcript,
translation, audio payload and metrics first, then sleeps for exactly the
batch audio duration (the only sleep in the trace has that duration), and
only after that sleep — but still before _play_batch returns and the loop
dequeues the next batch — releases the admission slot and increments the
played-batch counter. -/
theorem C6_play_batch_order (b : Processed) (h : b.pipeline_semaphore_acquired = true) :
    ∃ pre post,
      play_batch b = pre ++ Ev.sleep b.duration :: post
      ∧ (∃ rest, pre
          = [Ev.send_transcription b.original, Ev.send_translation b.original b.translated,
             Ev.send_audio b.audio_len b.duration, Ev.send_metrics] ++ rest)
      ∧ Ev.release_slot ∉ pre
      ∧ Ev.inc_batches_processed ∉ pre
      ∧ Ev.release_slot ∈ post
      ∧ Ev.inc_batches_processed ∈ post
      ∧ ∀ d, Ev.sleep d ∈ play_batch b → d = b.duration := by
  refine ⟨[Ev.send_transcription b.original, Ev.send_translation b.original b.translated,
           Ev.send_audio b.audio_len b.duration, Ev.send_metrics],
          [Ev.inc_batches_processed, Ev.send_metrics, Ev.release_slot],
          ?_, ⟨[], rfl⟩, ?_, ?_, ?_, ?_, ?_⟩
  · simp [play_batch, h]
  · simp
  · simp
  · simp
  · simp
  · intro d hd
    simp [play_batch, h] at hd
    exact hd

/-- Claim C6, witness: a concrete slot-holding batch of duration 2 s. -/
theorem C6_play_batch_order_witness :
    ((⟨"hello", "privet", 100, 2, true⟩ : Processed).pipeline_semaphore_acquired = true)
    ∧ (∃ pre post,
        play_batch ⟨"hello", "privet", 100, 2, true⟩
          = pre ++ Ev.sleep (⟨"hello", "privet", 100, 2, true⟩ : Processed).duration :: post
        ∧ (∃ rest, pre
            = [Ev.send_transcription "hello", Ev.send_translation "hello" "privet",
               Ev.send_audio 100 (⟨"hello", "privet", 100, 2, true⟩ : Processed).duration,
               Ev.send_metrics] ++ rest)
        ∧ Ev.release_slot ∉ pre
        ∧ Ev.inc_batches_processed ∉ pre
        ∧ Ev.release_slot ∈ post
        ∧ Ev.inc_batches_processed ∈ post
        ∧ ∀ d, Ev.sleep d ∈ play_batch ⟨"hello", "privet", 100, 2, true⟩
            → d = (⟨"hello", "privet", 100, 2, true⟩ : Processed).duration) :=
  ⟨rfl, C6_play_batch_order ⟨"hello", "privet", 100, 2, true⟩ rfl⟩

/-- Global per-session counters of batch_queue.py, abstracting the
cooperative-concurrency execution: free admission slots
(pipeline_semaphore._value), batches in background processing
(processing_count), batches waiting on the ready queue
(ready_queue.qsize()), batches dequeued by the scheduler but not yet
released, the playback_started flag, and the cumulative number of batches
the scheduler has dequeued for playback. -/
structure QueueState where
  semAvail : Nat
  processing : Nat
  ready : Nat
  playing : Nat
  playback_started : Bool
  played : Nat

/-- Session start (BatchQueue.__init__): all max_concurrent_batches
admission slots free, nothing in flight, playback not started. -/
def QueueState.init (maxConcurrent : Nat) : QueueState :=
  ⟨maxConcurrent, 0, 0, 0, false, 0⟩

/-- The atomic transitions of the batch queue and playback scheduler.
submit is add_batch acquiring a slot and launching the background task;
skip_release and fail_release are _process_batch_async releasing the slot
on a language skip or an exception; finish_ready is a successful batch
moving onto the ready queue; prebuffer_poll is one iteration of the
playback-loop buffering wait; dequeue_play is the scheduler taking the
next batch off the ready queue; play_done is the finally block of
_play_batch releasing the admission slot after playback. -/
inductive QEvent where
  | submit
  | skip_release
  | fail_release
  | finish_ready
  | prebuffer_poll
  | dequeue_play
  | play_done

/-- One step of the system.  Each event fires only when its guard holds —
the semaphore blocks acquisition at zero, queue operations block on empty,
the scheduler dequeues only once playback_started is set, and the
buffering wait sets playback_started only when the ready depth has reached
minReady (min_ready_chunks_before_start) — otherwise the caller keeps
waiting and the state is unchanged. -/
def qstep (minReady : Nat) (s : QueueState) : QEvent → QueueState
  | QEvent.submit =>
      if 0 < s.semAvail then
        { s with semAvail := s.semAvail - 1, processing := s.processing + 1 }
      else s
  | QEvent.skip_release =>
      if 0 < s.processing then
        { s with processing := s.processing - 1, semAvail := s.semAvail + 1 }
      else s
  | QEvent.fail_release =>
      if 0 < s.processing then
        { s with processing := s.processing - 1, semAvail := s.semAvail + 1 }
      else s
  | QEvent.finish_ready =>
      if 0 < s.processing then
        { s with processing := s.processing - 1, ready := s.ready + 1 }
      else s
  | QEvent.prebuffer_poll =>
      if s.playback_started = false ∧ minReady ≤ s.ready then
        { s with playback_started := true }
      else s
  | QEvent.dequeue_play =>
      if s.playback_started = true ∧ 0 < s.ready then
        { s with ready := s.ready - 1, playing := s.playing + 1, played := s.played + 1 }
      else s
  | QEvent.play_done =>
      if 0 < s.playing then
        { s with playing := s.playing - 1, semAvail := s.semAvail + 1 }
      else s

/-- Run the system through a whole sequence of events. -/
def qrun (minReady : Nat) (s : QueueState) : List QEvent → QueueState
  | [] => s
  | e :: es => qrun minReady (qstep minReady s e) es

/-- Number of utterances between submission and playback completion:
processing plus ready plus playing. -/
def inFlight (s : QueueState) : Nat := s.processing + s.ready + s.playing

theorem qstep_slot_conservation (minReady : Nat) (s : QueueState) (e : QEvent) :
    (qstep minReady s e).semAvail + inFlight (qstep minReady s e)
      = s.semAvail + inFlight s := by
  cases e
  all_goals simp only [qstep, inFlight]
  all_goals split
  all_goals first
    | rfl
    | (rename_i h; dsimp only; omega)

theorem qrun_slot_conservation (minReady : Nat) (es : List QEvent) (s : QueueState) :
    (qrun minReady s es).semAvail + inFlight (qrun minReady s es)
      = s.semAvail + inFlight s := by
  induction es generalizing s with
  | nil => rfl
  | cons e es ih =>
      have h1 := qstep_slot_conservation minReady s e
      have h2 := ih (qstep minReady s e)
      unfold qrun
      omega

/-- Claim C1: for every sequence of events (hence at every instant of every
admission sequence), the number of utterances between submission and
playback completion — processing plus ready plus playing — never exceeds
max_concurrent_batches: a slot is taken at submission and given back
exactly once, on playback completion, on error, or on a language skip. -/
theorem C1_admission_bound (maxConcurrent minReady : Nat) (es : List QEvent) :
    inFlight (qrun minReady (QueueState.init maxConcurrent) es) ≤ maxConcurrent := by
  have h := qrun_slot_conservation minReady es (QueueState.init maxConcurrent)
  unfold inFlight at h ⊢
  simp only [QueueState.init] at h ⊢
  omega

theorem qstep_not_started_played (minReady : Nat) (s : QueueState) (e : QEvent)
    (h0 : s.played = 0) (h1 : s.playback_started = false)
    (h2 : (qstep minReady s e).playback_started = false) :
    (qstep minReady s e).played = 0 := by
  cases e
  all_goals simp only [qstep] at h2 ⊢
  all_goals try split
  all_goals simp_all

theorem qstep_started_ready (minReady : Nat) (s : QueueState) (e : QEvent)
    (h1 : s.playback_started = false)
    (h2 : (qstep minReady s e).playback_started = true) :
    minReady ≤ s.ready := by
  cases e
  all_goals simp only [qstep] at h2
  all_goals try split at h2
  all_goals simp_all

theorem qrun_prebuffer (minReady : Nat) (es : List QEvent) (s : QueueState)
    (h0 : s.played = 0) (h1 : s.playback_started = false)
    (h : 0 < (qrun minReady s es).played) :
    ∃ k, minReady ≤ (qrun minReady s (es.take k)).ready
      ∧ (qrun minReady s (es.take k)).played = 0 := by
  induction es generalizing s with
  | nil =>
      simp only [qrun] at h
      omega
  | cons e es ih =>
      by_cases hs : (qstep minReady s e).playback_started = false
      · have hp := qstep_not_started_played minReady s e h0 h1 hs
        have hrun : qrun minReady s (e :: es) = qrun minReady (qstep minReady s e) es := rfl
        rw [hrun] at h
        obtain ⟨k, hk1, hk2⟩ := ih (qstep minReady s e) hp hs h
        refine ⟨k + 1, ?_, ?_⟩
        · simpa [List.take_succ_cons, qrun] using hk1
        · simpa [List.take_succ_cons, qrun] using hk2
      · have hst : (qstep minReady s e).playback_started = true := by
          revert hs; cases (qstep minReady s e).playback_started <;> simp
        have hr := qstep_started_ready minReady s e h1 hst
        exact ⟨0, by simpa [qrun] using hr, by simpa [qrun] using h0⟩

/-- Claim C5: in every execution, playback of the first batch never starts
before at least min_ready_chunks_before_start utterances are in the ready
queue: if the scheduler has dequeued any batch by the end of a run, then
at some earlier instant — while nothing had yet been played — the ready
queue held at least minReady batches (the buffering wait flips
playback_started only once the polled depth reaches the threshold, and
only then is the first dequeue possible). -/
theorem C5_prebuffer_before_first_play (maxConcurrent minReady : Nat) (es : List QEvent)
    (h : 0 < (qrun minReady (QueueState.init maxConcurrent) es).played) :
    ∃ k, minReady ≤ (qrun minReady (QueueState.init maxConcurrent) (es.take k)).ready
      ∧ (qrun minReady (QueueState.init maxConcurrent) (es.take k)).played = 0 :=
  qrun_prebuffer minReady es (QueueState.init maxConcurrent) rfl rfl h

/-- Claim C5, witness: with a prebuffer threshold of 2, a run that submits
and finishes two batches, polls, and dequeues one has played a batch, so
the theorem yields an instant with two ready batches and nothing played. -/
theorem C5_prebuffer_before_first_play_witness :
    (0 < (qrun 2 (QueueState.init 3)
        [QEvent.submit, QEvent.submit, QEvent.finish_ready, QEvent.finish_ready,
         QEvent.prebuffer_poll, QEvent.dequeue_play]).played)
    ∧ (∃ k, 2 ≤ (qrun 2 (QueueState.init 3)
          ([QEvent.submit, QEvent.submit, QEvent.finish_ready, QEvent.finish_ready,
            QEvent.prebuffer_poll, QEvent.dequeue_play].take k)).ready
        ∧ (qrun 2 (QueueState.init 3)
          ([QEvent.submit, QEvent.submit, QEvent.finish_ready, QEvent.finish_ready,
            QEvent.prebuffer_poll, QEvent.dequeue_play].take k)).played = 0) :=
  ⟨by decide, C5_prebuffer_before_first_play 3 2
    [QEvent.submit, QEvent.submit, QEvent.finish_ready, QEvent.finish_ready,
     QEvent.prebuffer_poll, QEvent.dequeue_play] (by decide)⟩
